import Mathlib

/-!
Shallow embedding of the decision logic of the Smart_Agri_Disease_Detection
backend, covering:

* `backend/disease/ml_model.py`: class-label loading (`get_class_labels`),
  label formatting (`_format_label`), the singleton model caches
  (`get_disease_model`, `get_gatekeeper_model`) and the post-inference
  decision pipeline (`predict_disease`);
* `backend/yield_prediction/ml_model.py`: the risk classifier
  (`_classify_risk`) and its baseline table (`CROP_BASELINES`).

Python floats are modelled as exact rationals (ℚ); Python strings as Lean
strings restricted to their actual ASCII content.  Exceptions raised and
caught inside the pipeline are modelled explicitly; an uncaught exception is
modelled as `Option.none` at the pipeline boundary.  The outcome of external
I/O (TensorFlow inference, file reads, model loads) is passed in as an
explicit parameter, since only the surrounding decision logic is under
verification.
-/

/-- ASCII lower-casing, modelling Python `str.lower()` on ASCII content. -/
def strLower (s : String) : String := String.mk (s.toList.map Char.toLower)

/-- Boolean test that the first list is an initial segment of the second;
models Python `str.startswith` on character lists. -/
def isPre : List Char → List Char → Bool
  | [], _ => true
  | _ :: _, [] => false
  | a :: n, b :: h => a == b && isPre n h

/-- Boolean substring test `needle ∈ haystack` (second argument is the
needle); models Python `in` on strings. -/
def hasSub : List Char → List Char → Bool
  | [], n => isPre n []
  | c :: t, n => isPre n (c :: t) || hasSub t n

/-- Leftmost, non-overlapping replacement of `"___"` by a single space;
models the first `.replace('___', ' ')` of `_format_label`. -/
def replace3 : List Char → List Char
  | '_' :: '_' :: '_' :: t => ' ' :: replace3 t
  | c :: t => c :: replace3 t
  | [] => []

/-- Replacement of every underscore by a space; models `.replace('_', ' ')`. -/
def replace1 (l : List Char) : List Char := l.map fun c => if c = '_' then ' ' else c

/-- Models Python `str.title()` on ASCII: a letter following a non-letter is
upper-cased, a letter following a letter is lower-cased. The flag records
whether the previous character was a letter. -/
def pyTitleAux : Bool → List Char → List Char
  | _, [] => []
  | prev, c :: t =>
    if c.isAlpha then (if prev then c.toLower else c.toUpper) :: pyTitleAux true t
    else c :: pyTitleAux false t

/-- Embeds `_format_label` from `backend/disease/ml_model.py`:
`raw_label.replace('___', ' ').replace('_', ' ').title()`. -/
def formatLabel (s : String) : String :=
  String.mk (pyTitleAux false (replace1 (replace3 s.toList)))

/-- Risk band returned by `_classify_risk`. -/
inductive Risk
  | Low
  | Medium
  | High
deriving DecidableEq, Repr

/-- The `CROP_BASELINES` table of `backend/yield_prediction/ml_model.py`. -/
def CROP_BASELINES : List (String × ℚ) :=
  [("Rice", 1700), ("Wheat", 600), ("Maize", 1900),
   ("Sugarcane", 35000), ("Cotton", 500), ("Groundnut", 700),
   ("Millets", 500), ("Pulses", 300), ("Banana", 17000),
   ("Coconut", 4000), ("Turmeric", 2200), ("Tea", 650)]

/-- First-match association lookup, modelling Python `dict.get` on the
literal key/value list. -/
def lookupQ : List (String × ℚ) → String → Option ℚ
  | [], _ => none
  | (k, v) :: t, c => if k = c then some v else lookupQ t c

/-- Models `CROP_BASELINES.get(crop, 1000)`. -/
def baselineOf (crop : String) : ℚ := (lookupQ CROP_BASELINES crop).getD 1000

/-- The banding step of `_classify_risk`:
`if ratio >= 0.85: 'Low' elif ratio >= 0.55: 'Medium' else: 'High'`. -/
def riskBand (r : ℚ) : Risk :=
  if 85/100 ≤ r then .Low else if 55/100 ≤ r then .Medium else .High

/-- Models `_classify_risk` with the baseline abstracted:
`ratio = predicted_yield / baseline if baseline else 0.5`, then banding.
(Python truthiness of a number is inequality with zero.) -/
def classify_risk_core (y b : ℚ) : Risk :=
  riskBand (if b ≠ 0 then y / b else 1/2)

/-- Embeds `_classify_risk` from `backend/yield_prediction/ml_model.py`. -/
def classify_risk (y : ℚ) (crop : String) : Risk :=
  classify_risk_core y (baselineOf crop)

/-- The `DEFAULT_CLASS_LABELS` list of `backend/disease/ml_model.py` (48
classes), used when no label file is available. -/
def DEFAULT_CLASS_LABELS : List String :=
  ["Apple___Apple_scab",
   "Apple___Black_rot",
   "Apple___Cedar_apple_rust",
   "Apple___healthy",
   "Blueberry___healthy",
   "Cherry_(including_sour)___Powdery_mildew",
   "Cherry_(including_sour)___healthy",
   "Corn_(maize)___Cercospora_leaf_spot Gray_leaf_spot",
   "Corn_(maize)___Common_rust_",
   "Corn_(maize)___Northern_Leaf_Blight",
   "Corn_(maize)___healthy",
   "Grape___Black_rot",
   "Grape___Esca_(Black_Measles)",
   "Grape___Leaf_blight_(Isariopsis_Leaf_Spot)",
   "Grape___healthy",
   "Onion___Purple_blotch",
   "Onion___healthy",
   "Orange___Haunglongbing_(Citrus_greening)",
   "Peach___Bacterial_spot",
   "Peach___healthy",
   "Pepper,_bell___Bacterial_spot",
   "Pepper,_bell___healthy",
   "Potato___Early_blight",
   "Potato___Late_blight",
   "Potato___healthy",
   "Raspberry___healthy",
   "Rice___Brown_spot",
   "Rice___Hispa",
   "Rice___Leaf_blast",
   "Rice___healthy",
   "Soybean___healthy",
   "Squash___Powdery_mildew",
   "Strawberry___Leaf_scorch",
   "Strawberry___healthy",
   "Tomato___Bacterial_spot",
   "Tomato___Early_blight",
   "Tomato___Late_blight",
   "Tomato___Leaf_Mold",
   "Tomato___Septoria_leaf_spot",
   "Tomato___Spider_mites Two-spotted_spider_mite",
   "Tomato___Target_Spot",
   "Tomato___Tomato_Yellow_Leaf_Curl_Virus",
   "Tomato___Tomato_mosaic_virus",
   "Tomato___healthy",
   "Wheat___Brown_rust",
   "Wheat___Septoria",
   "Wheat___Yellow_rust",
   "Wheat___healthy"]

/-- Whitespace characters stripped by Python `str.strip()`. -/
def pyWS (c : Char) : Bool :=
  c = ' ' ∨ c = '\t' ∨ c = '\n' ∨ c = '\x0d' ∨ c = '\x0b' ∨ c = '\x0c'

/-- Models Python `str.strip()`: drop leading and trailing whitespace. -/
def pyStrip (s : String) : String :=
  String.mk (((s.toList.dropWhile pyWS).reverse.dropWhile pyWS).reverse)

/-- Split at the first occurrence of `sep`, models `str.split(sep, 1)`:
`none` when `sep` does not occur, otherwise the parts before and after. -/
def splitOnce (sep : Char) : List Char → Option (List Char × List Char)
  | [] => none
  | c :: t =>
    if c = sep then some ([], t)
    else (splitOnce sep t).map fun p => (c :: p.1, p.2)

/-- Accumulate a decimal digit string, allowing single underscores between
digits as Python `int()` does; `none` on any other character. -/
def digsAux : ℕ → List Char → Option ℕ
  | acc, [] => some acc
  | acc, c :: t =>
    if c.isDigit then digsAux (acc * 10 + (c.toNat - 48)) t
    else if c = '_' then
      match t with
      | d :: t2 => if d.isDigit then digsAux (acc * 10 + (d.toNat - 48)) t2 else none
      | [] => none
    else none

/-- Models Python `int(s)` on ASCII decimal strings: optional surrounding
whitespace, optional sign, then digits (with single underscores allowed
between digits); `none` models a raised `ValueError`. -/
def pyInt (s : String) : Option ℤ :=
  match (pyStrip s).toList with
  | '+' :: d :: t => if d.isDigit then (digsAux (d.toNat - 48) t).map Int.ofNat else none
  | '-' :: d :: t => if d.isDigit then (digsAux (d.toNat - 48) t).map (fun n => -(n : ℤ)) else none
  | d :: t => if d.isDigit then (digsAux (d.toNat - 48) t).map Int.ofNat else none
  | [] => none

/-- Insert into an association list with dict semantics: an existing key is
overwritten in place, a new key is appended. -/
def insertOver (k : ℤ) (v : String) : List (ℤ × String) → List (ℤ × String)
  | [] => [(k, v)]
  | (k2, v2) :: t => if k2 = k then (k, v) :: t else (k2, v2) :: insertOver k v t

/-- The parsing loop of `get_class_labels`: for each line, strip it, split at
the first colon; a line without a colon is skipped; otherwise the part
before the colon must parse as an integer — a failure there raises, which
aborts the whole parse (`none`); on success `labels[idx] = label`. -/
def parseAll (acc : List (ℤ × String)) : List String → Option (List (ℤ × String))
  | [] => some acc
  | line :: rest =>
    match splitOnce ':' (pyStrip line).toList with
    | none => parseAll acc rest
    | some (before, after) =>
      match pyInt (String.mk before) with
      | none => none
      | some idx => parseAll (insertOver idx (pyStrip (String.mk after)) acc) rest

/-- Insertion into a sorted list of integers (ascending). -/
def insSorted (x : ℤ) : List ℤ → List ℤ
  | [] => [x]
  | y :: t => if x ≤ y then x :: y :: t else y :: insSorted x t

/-- Sort a list of integers ascending; models `sorted(labels.keys())` (the
keys are distinct by construction). -/
def sortInts (l : List ℤ) : List ℤ := l.foldr insSorted []

/-- Lookup in the parsed dictionary with a default (every sorted key is
present, so the default is never used). -/
def lookupS : List (ℤ × String) → ℤ → String
  | [], _ => ""
  | (k, v) :: t, i => if k = i then v else lookupS t i

/-- Build `[labels[i] for i in sorted(labels.keys())]`. -/
def buildSeq (d : List (ℤ × String)) : List String :=
  (sortInts (d.map Prod.fst)).map (lookupS d)

/-- Embeds `get_class_labels` from `backend/disease/ml_model.py`.  The file
is modelled as `none` (absent or unreadable) or `some lines`.  A parse abort
(non-integer index on a colon line) is caught by the surrounding
`except` and falls back to `DEFAULT_CLASS_LABELS`. -/
def get_class_labels (file : Option (List String)) : List String :=
  match file with
  | none => DEFAULT_CLASS_LABELS
  | some lines =>
    match parseAll [] lines with
    | none => DEFAULT_CLASS_LABELS
    | some d => buildSeq d

/-- Round-half-to-even on a rational, the rounding used by Python `round`. -/
def rhe (q : ℚ) : ℤ :=
  let f := ⌊q⌋
  let r := q - f
  if r < 1/2 then f else if 1/2 < r then f + 1 else if f % 2 = 0 then f else f + 1

/-- Models Python `round(q, n)` (idealized over exact rationals). -/
def pyRound (n : ℕ) (q : ℚ) : ℚ := rhe (q * 10 ^ n) / 10 ^ n

/-- Decimal rendering of a non-negative rational that is a multiple of 1/10,
as Python `str()` renders the corresponding float (e.g. `"45.0"`, `"44.9"`). -/
def ratStr1 (q : ℚ) : String :=
  toString (⌊q * 10⌋ / 10) ++ "." ++ toString (⌊q * 10⌋ % 10)

/-- A single-quote character as a string (ASCII 39). -/
def sqChar : String := (Char.ofNat 39).toString

/-- The low-confidence error message of `predict_disease`:
`f"Low confidence ({round(confidence, 1)}%). This crop looks unsupported."`
applied to the already-rounded confidence. -/
def lowConfMsg (r : ℚ) : String :=
  "Low confidence (" ++ ratStr1 r ++ "%). This crop looks unsupported."

/-- The gatekeeper-rejection error message of `predict_disease`:
`f"Image appears to be '{content_desc.replace('_', ' ')}', not a crop leaf."`. -/
def gateMsg (d : String) : String :=
  "Image appears to be " ++ sqChar ++ String.mk (replace1 d.toList) ++ sqChar ++ ", not a crop leaf."

/-- The result dictionary returned by `predict_disease`.  `raw_label` and
`error` are optional because some branches of the source omit those keys. -/
structure PredictionResult where
  success : Bool
  disease_name : String
  confidence : ℚ
  is_healthy : Bool
  raw_label : Option String
  error : Option String
deriving DecidableEq, Repr

/-- The dictionary built by the `except` clause of `predict_disease`
(no `raw_label` key). -/
def errResult (msg : String) : PredictionResult :=
  { success := false, disease_name := "Error", confidence := 0,
    is_healthy := false, raw_label := none, error := some msg }

/-- The dictionary returned when the gatekeeper rejects the image. -/
def gateReject (desc : String) : PredictionResult :=
  { success := false, disease_name := "Invalid data", confidence := 0,
    is_healthy := false, raw_label := some "invalid_content",
    error := some (gateMsg desc) }

/-- Left fold computing the first index of the maximum together with the
maximum value, with `np.argmax` semantics (ties keep the earlier index):
arguments are next index, best index so far, best value so far, rest. -/
def argmaxAux : ℕ → ℕ → ℚ → List ℚ → ℕ × ℚ
  | _, bi, bv, [] => (bi, bv)
  | i, bi, bv, p :: t => if bv < p then argmaxAux (i + 1) i p t else argmaxAux (i + 1) bi bv t

/-- `(np.argmax(l), np.max(l))` for a non-empty list (`(0, 0)` on `[]`,
which the pipeline never reaches because `np.argmax([])` raises). -/
def argmaxL : List ℚ → ℕ × ℚ
  | [] => (0, 0)
  | p :: t => argmaxAux 1 0 p t

/-- The crop-filter predicate of `predict_disease`:
`label.lower().startswith(crop_filter.lower()) or
 (crop_filter.lower() == 'corn' and 'corn' in label.lower()) or
 (crop_filter.lower() == 'cherry' and 'cherry' in label.lower())`. -/
def filtMatch (f label : String) : Bool :=
  isPre (strLower f).toList (strLower label).toList
  || (strLower f == "corn" && hasSub (strLower label).toList "corn".toList)
  || (strLower f == "cherry" && hasSub (strLower label).toList "cherry".toList)

/-- `valid_indices`: the indices of the labels matched by the crop filter,
starting the count at the first argument. -/
def validIdxFrom (f : String) : ℕ → List String → List ℕ
  | _, [] => []
  | i, l :: t =>
    if filtMatch f l then i :: validIdxFrom f (i + 1) t
    else validIdxFrom f (i + 1) t

/-- Elementwise product with the 0/1 mask of `valid_indices`
(`predictions * mask`), counting positions from the first argument. -/
def maskList (vi : List ℕ) : ℕ → List ℚ → List ℚ
  | _, [] => []
  | i, p :: t => (if i ∈ vi then p else 0) :: maskList vi (i + 1) t

/-- The crop-filter masking step of `predict_disease`: with a truthy filter
and a non-empty `valid_indices`, zero every probability outside the set;
otherwise leave the vector untouched. -/
def applyMask (labels : List String) (flt : Option String) (preds : List ℚ) : List ℚ :=
  match flt with
  | none => preds
  | some f =>
    if f = "" then preds
    else if validIdxFrom f 0 labels = [] then preds
    else maskList (validIdxFrom f 0 labels) 0 preds

/-- The mock branch's search loop: first label whose lower-casing contains
the lower-cased filter as a substring. -/
def firstMatchFrom (f : String) : ℕ → List String → Option ℕ
  | _, [] => none
  | i, l :: t =>
    if hasSub (strLower l).toList (strLower f).toList then some i
    else firstMatchFrom f (i + 1) t

/-- `mock_idx`: 29 by default, else the first matching label's index
(an empty-string filter is falsy in Python, hence also the default). -/
def mockIdx (labels : List String) (flt : Option String) : ℕ :=
  match flt with
  | none => 29
  | some f => if f = "" then 29 else (firstMatchFrom f 0 labels).getD 29

/-- The mock branch of `predict_disease`.  `CLASS_LABELS[mock_idx]` is an
unguarded list access (outside any `try`), so an out-of-range index is an
uncaught `IndexError`, modelled as `none`. -/
def mockPredict (labels : List String) (flt : Option String) : Option PredictionResult :=
  match labels[mockIdx labels flt]? with
  | none => none
  | some raw =>
    some { success := true, disease_name := formatLabel raw, confidence := 171/2,
           is_healthy := hasSub (strLower raw).toList "healthy".toList,
           raw_label := some raw, error := none }

/-- The `try` block of `predict_disease`: inference, masking, argmax,
label lookup and the confidence threshold.  A raised exception is caught by
the `except` clause, which returns `errResult` — the backend's own failure
is `.error msg` (message `str(e)`), `np.argmax` on an empty vector raises
`"attempt to get argmax of an empty sequence"`, and an out-of-range label
access raises `"list index out of range"`. -/
def realBranch (labels : List String) (flt : Option String)
    (inference : Except String (List ℚ)) : PredictionResult :=
  match inference with
  | .error msg => errResult msg
  | .ok preds =>
    match applyMask labels flt preds with
    | [] => errResult "attempt to get argmax of an empty sequence"
    | p :: t =>
      let am := argmaxAux 1 0 p t
      let conf := am.2 * 100
      match labels[am.1]? with
      | none => errResult "list index out of range"
      | some raw =>
        if conf < 45 then
          { success := false, disease_name := "Crop Not Trained",
            confidence := pyRound 2 conf, is_healthy := false,
            raw_label := some raw, error := some (lowConfMsg (pyRound 1 conf)) }
        else
          { success := true, disease_name := formatLabel raw,
            confidence := pyRound 2 conf,
            is_healthy := hasSub (strLower raw).toList "healthy".toList,
            raw_label := some raw, error := none }

/-- Embeds `predict_disease` from `backend/disease/ml_model.py`.  The label
registry, the mock flag of the model cache, the gatekeeper verdict
`(is_plant, content_desc)` and the outcome of the backend inference are
explicit parameters; the image tensor itself only influences the result
through the gatekeeper verdict and the inference outcome.  `none` models an
uncaught exception. -/
def predict_disease (labels : List String) (usingMock : Bool) (gate : Bool × String)
    (inference : Except String (List ℚ)) (flt : Option String) : Option PredictionResult :=
  if usingMock then mockPredict labels flt
  else some (if gate.1 then realBranch labels flt inference else gateReject gate.2)

/-- The module-level mutable state of `backend/disease/ml_model.py` that
`get_disease_model` reads and writes: `_model`, `_model_loaded`,
`_using_mock`.  Model handles are abstracted as natural-number tokens. -/
structure DState where
  model : Option ℕ
  loaded : Bool
  usingMock : Bool
deriving DecidableEq, Repr

/-- Outcome of the attempt to load the primary model from disk: the file
may be missing, `tf.keras.models.load_model` may raise (including the
`ImportError` of a missing TensorFlow), or loading may succeed. -/
inductive LoadOutcome
  | ok (h : ℕ)
  | fileMissing
  | loadFail
deriving DecidableEq, Repr

/-- What one call to `get_disease_model` produces: the returned pair
`(model, using_mock)`, the updated module state, and whether the call
attempted any load I/O. -/
structure DMResult where
  model : Option ℕ
  usingMock : Bool
  state : DState
  attemptedLoad : Bool
deriving DecidableEq, Repr

/-- Embeds `get_disease_model`: if `_model_loaded`, return the cached pair
untouched; otherwise attempt the load, and on any failure cache the mock
fallback (`_model = None`, `_using_mock = True`) permanently. -/
def get_disease_model (env : LoadOutcome) (s : DState) : DMResult :=
  if s.loaded then ⟨s.model, s.usingMock, s, false⟩
  else
    match env with
    | .ok h => ⟨some h, false, ⟨some h, true, false⟩, true⟩
    | .fileMissing => ⟨none, true, ⟨none, true, true⟩, true⟩
    | .loadFail => ⟨none, true, ⟨none, true, true⟩, true⟩

/-- What one call to `get_gatekeeper_model` produces: the returned handle,
the updated `_gatekeeper_model` cache, and whether the call attempted the
MobileNetV2 load. -/
structure GKResult where
  result : Option ℕ
  cache : Option ℕ
  attemptedLoad : Bool
deriving DecidableEq, Repr

/-- Embeds `get_gatekeeper_model`: `enabled` is the env-derived
`should_enable` flag (re-evaluated on every call), `loadResult` the outcome
of the MobileNetV2 load were it attempted (`none` = the load raises), and
`cache` the current `_gatekeeper_model`.  Note the source only assigns
`_gatekeeper_model` on a successful load: a failed load leaves the cache
`None` and returns `None`. -/
def get_gatekeeper_model (enabled : Bool) (loadResult : Option ℕ)
    (cache : Option ℕ) : GKResult :=
  if enabled = false then ⟨none, cache, false⟩
  else
    match cache with
    | some m => ⟨some m, some m, false⟩
    | none =>
      match loadResult with
      | some m => ⟨some m, some m, true⟩
      | none => ⟨none, none, true⟩

/-- A line of the label file whose part before the first colon does not
parse as an integer: `int()` raises on it, aborting the whole parse. -/
def lineBad (line : String) : Bool :=
  match splitOnce ':' (pyStrip line).toList with
  | none => false
  | some (b, _) => (pyInt (String.mk b)).isNone

/-- The probability vector carried by the inference outcome (`[]` when the
backend raised instead of returning one). -/
def predsOf : Except String (List ℚ) → List ℚ
  | .ok l => l
  | .error _ => []

/-- The exception message carried by the inference outcome, when it raised. -/
def errMsgOf : Except String (List ℚ) → Option String
  | .ok _ => none
  | .error m => some m

lemma lookupQ_getD_pos (l : List (String × ℚ)) (h : ∀ p ∈ l, 0 < p.2) (c : String) :
    0 < (lookupQ l c).getD 1000 := by
  induction l with
  | nil => norm_num [lookupQ]
  | cons p t ih =>
    obtain ⟨k, v⟩ := p
    rw [lookupQ]
    split
    · exact h (k, v) (List.mem_cons_self _ _)
    · exact ih fun q hq => h q (List.mem_cons_of_mem _ hq)

lemma baselineOf_pos (crop : String) : 0 < baselineOf crop := by
  refine lookupQ_getD_pos _ ?_ crop
  intro p hp
  fin_cases hp <;> norm_num

/-- C3: `_classify_risk` is a pure function of the predicted yield and the
crop: the baseline is looked up in `CROP_BASELINES` (1000 for unknown
crops), the ratio is yield/baseline, and the bands have inclusive lower
bounds: ratio ≥ 0.85 gives Low, 0.55 ≤ ratio < 0.85 gives Medium, and
ratio < 0.55 gives High. -/
theorem spec_c3_risk_bands (y : ℚ) (crop : String) :
    (lookupQ CROP_BASELINES crop = none → baselineOf crop = 1000)
    ∧ (classify_risk y crop = Risk.Low ↔ 85/100 ≤ y / baselineOf crop)
    ∧ (classify_risk y crop = Risk.Medium ↔
        55/100 ≤ y / baselineOf crop ∧ y / baselineOf crop < 85/100)
    ∧ (classify_risk y crop = Risk.High ↔ y / baselineOf crop < 55/100) := by
  have hb : baselineOf crop ≠ 0 := ne_of_gt (baselineOf_pos crop)
  rw [classify_risk, classify_risk_core, if_pos hb]
  refine ⟨fun h => by rw [baselineOf, h]; rfl, ?_, ?_, ?_⟩
  · rw [riskBand]; split_ifs with h1 h2
    · exact iff_of_true rfl h1
    · exact iff_of_false (by simp) h1
    · exact iff_of_false (by simp) h1
  · rw [riskBand]; split_ifs with h1 h2
    · exact iff_of_false (by simp) fun hc => absurd hc.2 (not_lt.mpr h1)
    · exact iff_of_true rfl ⟨h2, not_le.mp h1⟩
    · exact iff_of_false (by simp) fun hc => h2 hc.1
  · rw [riskBand]; split_ifs with h1 h2
    · exact iff_of_false (by simp) fun hc => absurd (lt_of_le_of_lt h1 hc) (by norm_num)
    · exact iff_of_false (by simp) fun hc => absurd h2 (not_le.mpr hc)
    · exact iff_of_true rfl (not_le.mp h2)

/-- Witness for `spec_c3_risk_bands` at the boundary ratios 0.85, 0.55 and
0.5499 (crop Rice, baseline 1700; crop Banana, baseline 17000). -/
theorem spec_c3_risk_bands_witness :
    classify_risk 1445 "Rice" = Risk.Low
    ∧ classify_risk 935 "Rice" = Risk.Medium
    ∧ classify_risk (17000 * 5499 / 10000) "Banana" = Risk.High := by
  have hr : baselineOf "Rice" = 1700 := by decide
  have hba : baselineOf "Banana" = 17000 := by decide
  refine ⟨(spec_c3_risk_bands 1445 "Rice").2.1.mpr ?_,
          (spec_c3_risk_bands 935 "Rice").2.2.1.mpr ?_,
          (spec_c3_risk_bands (17000 * 5499 / 10000) "Banana").2.2.2.mpr ?_⟩
  · rw [hr]; norm_num
  · rw [hr]; constructor <;> norm_num
  · rw [hba]; norm_num

/-- C10: `_classify_risk` is total and never divides by zero: the looked-up
baseline is always strictly positive (so the quotient branch is always
taken against a positive baseline); had the baseline been falsy (zero) the
ratio would be defined as 0.5 instead of dividing, giving High; and the
result is always one of the three risk bands. -/
theorem spec_c10_risk_totality (y : ℚ) (crop : String) :
    0 < baselineOf crop
    ∧ classify_risk_core y 0 = Risk.High
    ∧ classify_risk y crop = classify_risk_core y (baselineOf crop)
    ∧ (classify_risk y crop = Risk.Low ∨ classify_risk y crop = Risk.Medium
        ∨ classify_risk y crop = Risk.High) := by
  refine ⟨baselineOf_pos crop, by norm_num [classify_risk_core, riskBand], rfl, ?_⟩
  cases h : classify_risk y crop <;> simp

/-- C9: `_format_label` replaces the triple-underscore separator by a
space, remaining underscores by spaces, and title-cases:
`"Tomato___Early_blight"` yields exactly `"Tomato Early Blight"`, and
`"Corn_(maize)___Common_rust_"` yields `"Corn (Maize) Common Rust "` — a
title-cased string (a fixed point of the title-casing pass) containing no
underscore characters (note the trailing underscore becomes a trailing
space). -/
theorem spec_c9_format_label :
    formatLabel "Tomato___Early_blight" = "Tomato Early Blight"
    ∧ formatLabel "Corn_(maize)___Common_rust_" = "Corn (Maize) Common Rust "
    ∧ (formatLabel "Corn_(maize)___Common_rust_").toList.contains '_' = false
    ∧ String.mk (pyTitleAux false (formatLabel "Corn_(maize)___Common_rust_").toList)
        = formatLabel "Corn_(maize)___Common_rust_" := by
  refine ⟨by decide, by decide, by decide, by decide⟩

/-- C5 counterexample: the gatekeeper load is not idempotent after a
failure.  First call (gatekeeper enabled, cache empty, load raises)
attempts the load; the claim says the second call must return the cached
fallback without re-attempting I/O, but the second call attempts the load
again (`_gatekeeper_model` was never assigned). -/
theorem spec_c5_counterexample :
    (get_gatekeeper_model true none none).attemptedLoad = true
    ∧ (get_gatekeeper_model true none (get_gatekeeper_model true none none).cache).attemptedLoad
        = true := by decide

/-- C5 amended: the primary loader `get_disease_model` is idempotent after
the first call, even when that call failed (the mock fallback is cached and
never retried): any second call returns exactly the first call's result and
state, with no load I/O.  The gatekeeper loader caches only successful
loads: with a cached handle no load is attempted, but with an empty cache
every enabled call attempts the load — a failed attempt leaves the cache
empty and is re-attempted on the next call. -/
theorem spec_c5_amended (env1 env2 : LoadOutcome) (s : DState) (enabled : Bool)
    (lr lr2 : Option ℕ) (m : ℕ) :
    (get_disease_model env2 (get_disease_model env1 s).state
      = ⟨(get_disease_model env1 s).model, (get_disease_model env1 s).usingMock,
         (get_disease_model env1 s).state, false⟩)
    ∧ (get_gatekeeper_model enabled lr (some m)
      = if enabled then ⟨some m, some m, false⟩ else ⟨none, some m, false⟩)
    ∧ (get_gatekeeper_model true lr2 none = ⟨lr2, lr2, true⟩) := by
  refine ⟨?_, ?_, ?_⟩
  · by_cases hl : s.loaded <;> cases env1 <;> simp [get_disease_model, hl]
  · cases enabled <;> simp [get_gatekeeper_model]
  · cases lr2 <;> simp [get_gatekeeper_model]

lemma parseAll_of_bad (lines : List String) (acc : List (ℤ × String))
    (h : ∃ l ∈ lines, lineBad l = true) : parseAll acc lines = none := by
  induction lines generalizing acc with
  | nil => simp at h
  | cons l t ih =>
    rw [parseAll]
    rcases h with ⟨l2, hmem, hbad⟩
    rcases List.mem_cons.mp hmem with heq | hmem2
    · subst heq
      rw [lineBad] at hbad
      split
      · simp_all
      · rename_i b a hsp
        rw [hsp] at hbad
        simp only [Option.isNone_iff_eq_none] at hbad
        rw [hbad]
    · split
      · exact ih _ ⟨l2, hmem2, hbad⟩
      · split
        · rfl
        · exact ih _ ⟨l2, hmem2, hbad⟩

lemma parseAll_of_good (lines : List String) (acc : List (ℤ × String))
    (h : ∀ l ∈ lines, lineBad l = false) : (parseAll acc lines).isSome := by
  induction lines generalizing acc with
  | nil => simp [parseAll]
  | cons l t ih =>
    rw [parseAll]
    have hl := h l (List.mem_cons_self _ _)
    rw [lineBad] at hl
    split
    · exact ih _ fun x hx => h x (List.mem_cons_of_mem _ hx)
    · rename_i b a hsp
      rw [hsp] at hl
      simp only [Option.isNone_iff_eq_none] at hl
      split
      · simp_all
      · exact ih _ fun x hx => h x (List.mem_cons_of_mem _ hx)

/-- C7 counterexample: a malformed line is fatal to the whole parse.  The
file `["0: Apple"]` parses to `["Apple"]`, but adding the malformed line
`"x: Bad"` (colon present, non-integer index) makes `get_class_labels`
discard the parsed content and return the hard-coded default list — the
claim said a malformed line is skipped individually and never causes the
file's content to be discarded. -/
theorem spec_c7_counterexample :
    get_class_labels (some ["0: Apple"]) = ["Apple"]
    ∧ get_class_labels (some ["0: Apple", "x: Bad"]) = DEFAULT_CLASS_LABELS
    ∧ DEFAULT_CLASS_LABELS ≠ ["Apple"] := by
  refine ⟨by decide, by decide, by decide⟩

/-- C7 amended: when a label file exists, lines of the form `index: label`
are parsed and the result is sorted by index (out-of-order lines are
tolerated); a line with no colon is skipped individually and never fatal;
but a colon line whose index part does not parse as an integer aborts the
whole parse, and the default list is returned — as it also is for a
missing or unreadable file. -/
theorem spec_c7_amended (lines : List String) (skip : String)
    (hskip : splitOnce ':' (pyStrip skip).toList = none) :
    get_class_labels none = DEFAULT_CLASS_LABELS
    ∧ get_class_labels (some (skip :: lines)) = get_class_labels (some lines)
    ∧ ((∃ l ∈ lines, lineBad l = true) →
        get_class_labels (some lines) = DEFAULT_CLASS_LABELS)
    ∧ ((∀ l ∈ lines, lineBad l = false) →
        ∃ d, parseAll [] lines = some d
          ∧ get_class_labels (some lines) = buildSeq d)
    ∧ get_class_labels (some ["1: B", "0: A"]) = ["A", "B"] := by
  refine ⟨rfl, ?_, ?_, ?_, by decide⟩
  · rw [get_class_labels, get_class_labels, parseAll, hskip]
  · intro h
    rw [get_class_labels, parseAll_of_bad lines [] h]
  · intro h
    obtain ⟨d, hd⟩ := Option.isSome_iff_exists.mp (parseAll_of_good lines [] h)
    exact ⟨d, hd, by rw [get_class_labels, hd]⟩

/-- Witness for `spec_c7_amended`: a colon-less line is skipped (prepending
it changes nothing), and a malformed colon line forces the default list. -/
theorem spec_c7_amended_witness :
    get_class_labels (some ["nocolon", "0: Apple", "x: Bad"])
      = get_class_labels (some ["0: Apple", "x: Bad"])
    ∧ get_class_labels (some ["0: Apple", "x: Bad"]) = DEFAULT_CLASS_LABELS :=
  ⟨(spec_c7_amended ["0: Apple", "x: Bad"] "nocolon" (by decide)).2.1,
   (spec_c7_amended ["0: Apple", "x: Bad"] "nocolon" (by decide)).2.2.1 (by decide)⟩

lemma firstMatchFrom_lt (f : String) (labels : List String) (n i : ℕ)
    (h : firstMatchFrom f n labels = some i) : i < n + labels.length := by
  induction labels generalizing n with
  | nil => simp [firstMatchFrom] at h
  | cons l t ih =>
    rw [firstMatchFrom] at h
    split at h
    · simp only [Option.some.injEq] at h
      simp only [List.length_cons]
      omega
    · have := ih (n + 1) h
      simp only [List.length_cons]
      omega

lemma mockIdx_lt (labels : List String) (flt : Option String)
    (h29 : 29 < labels.length) : mockIdx labels flt < labels.length := by
  rcases flt with _ | f
  · simpa [mockIdx] using h29
  · rw [mockIdx]
    split
    · exact h29
    · cases hfm : firstMatchFrom f 0 labels with
      | none => simpa [hfm] using h29
      | some i =>
        have h2 := firstMatchFrom_lt f labels 0 i hfm
        simp only [Option.getD_some]
        omega

lemma getElemQ_eq (l : List String) : ∀ (i : ℕ), i < l.length → l[i]? = some (l.getD i "") := by
  induction l with
  | nil => intro i h; simp at h
  | cons a t ih =>
    intro i h
    cases i with
    | zero => simp
    | succ j =>
      rw [List.getElem?_cons_succ, List.getD_cons_succ]
      exact ih j (by simpa using h)

/-- C2: in mock mode (primary model absent), `predict_disease` never throws
on a registry with more than 29 labels, and returns the deterministic
success result with confidence 85.50 and `raw_label` the label at
`mockIdx` — the first label containing the crop filter as a
case-insensitive substring, or index 29 when no filter is given (or it is
empty, hence falsy) or no label matches.  The gatekeeper verdict and the
inference outcome are irrelevant in this branch. -/
theorem spec_c2_mock_mode (labels : List String) (gate : Bool × String)
    (inference : Except String (List ℚ)) (flt : Option String)
    (h29 : 29 < labels.length) :
    predict_disease labels true gate inference flt
      = some { success := true,
               disease_name := formatLabel (labels.getD (mockIdx labels flt) ""),
               confidence := 171/2,
               is_healthy := hasSub (strLower (labels.getD (mockIdx labels flt) "")).toList
                 "healthy".toList,
               raw_label := some (labels.getD (mockIdx labels flt) ""),
               error := none } := by
  rw [predict_disease, if_pos rfl, mockPredict,
    getElemQ_eq labels (mockIdx labels flt) (mockIdx_lt labels flt h29)]

/-- Witness for `spec_c2_mock_mode` with the default registry: filter
`"tomato"` selects the first Tomato label (index 34), and no filter
selects index 29 (`Rice___healthy`); gatekeeper verdict and inference
outcome differ between the two calls and are ignored. -/
theorem spec_c2_mock_mode_witness :
    predict_disease DEFAULT_CLASS_LABELS true (true, "x") (Except.ok []) (some "tomato")
      = some { success := true, disease_name := "Tomato Bacterial Spot",
               confidence := 171/2, is_healthy := false,
               raw_label := some "Tomato___Bacterial_spot", error := none }
    ∧ predict_disease DEFAULT_CLASS_LABELS true (false, "y") (Except.error "boom") none
      = some { success := true, disease_name := "Rice Healthy",
               confidence := 171/2, is_healthy := true,
               raw_label := some "Rice___healthy", error := none } :=
  ⟨(spec_c2_mock_mode DEFAULT_CLASS_LABELS (true, "x") (Except.ok [])
      (some "tomato") (by decide)).trans rfl,
   (spec_c2_mock_mode DEFAULT_CLASS_LABELS (false, "y") (Except.error "boom")
      none (by decide)).trans rfl⟩

lemma maskList_length (vi : List ℕ) : ∀ (l : List ℚ) (s : ℕ),
    (maskList vi s l).length = l.length := by
  intro l
  induction l with
  | nil => intro s; rfl
  | cons p t ih => intro s; simp [maskList, ih]

lemma maskList_getD (vi : List ℕ) : ∀ (l : List ℚ) (s i : ℕ),
    (maskList vi s l).getD i 0
      = if i < l.length then (if (s + i) ∈ vi then l.getD i 0 else 0) else 0 := by
  intro l
  induction l with
  | nil => intro s i; simp [maskList]
  | cons p t ih =>
    intro s i
    cases i with
    | zero => simp [maskList]
    | succ j =>
      rw [maskList, List.getD_cons_succ, List.getD_cons_succ, ih (s + 1) j]
      have hadd : s + 1 + j = s + (j + 1) := by omega
      rw [hadd]
      simp only [List.length_cons]
      by_cases hj : j < t.length
      · simp [hj, Nat.succ_lt_succ hj]
      · have : ¬ (j + 1 < t.length + 1) := by omega
        simp [hj, this]

/-- C8: the crop-filter masking of `predict_disease` never changes the
vector length (so argmax and confidence always have input), involves no
division; when `valid_indices` is empty the full unmasked vector is used
unchanged, and when it is non-empty the vector is `predictions * mask`:
entries at valid indices are kept verbatim (no renormalization), all
others are zeroed. -/
theorem spec_c8_mask_fallback (labels : List String) (f : String) (preds : List ℚ)
    (hf : f ≠ "") :
    (applyMask labels (some f) preds).length = preds.length
    ∧ (validIdxFrom f 0 labels = [] → applyMask labels (some f) preds = preds)
    ∧ (validIdxFrom f 0 labels ≠ [] →
        applyMask labels (some f) preds = maskList (validIdxFrom f 0 labels) 0 preds)
    ∧ ∀ (vi : List ℕ) (i : ℕ),
        (maskList vi 0 preds).getD i 0 = if i ∈ vi then preds.getD i 0 else 0 := by
  refine ⟨?_, ?_, ?_, ?_⟩
  · rw [applyMask, if_neg hf]
    split
    · rfl
    · exact maskList_length _ preds 0
  · intro h
    rw [applyMask, if_neg hf, if_pos h]
  · intro h
    rw [applyMask, if_neg hf, if_neg h]
  · intro vi i
    rw [maskList_getD vi preds 0 i]
    simp only [Nat.zero_add]
    by_cases hi : i < preds.length
    · simp [hi]
    · have hd : preds.getD i 0 = 0 := List.getD_eq_default preds 0 (by omega)
      rw [if_neg hi, hd]
      simp

/-- Witness for `spec_c8_mask_fallback` on the default registry: the filter
`"mango"` matches no label, so the vector passes through unmasked; the
filter `"apple"` matches labels, so the vector is masked entrywise. -/
theorem spec_c8_mask_fallback_witness :
    applyMask DEFAULT_CLASS_LABELS (some "mango") [1/4, 3/4] = [1/4, 3/4]
    ∧ applyMask DEFAULT_CLASS_LABELS (some "apple") [1/4, 3/4]
        = maskList (validIdxFrom "apple" 0 DEFAULT_CLASS_LABELS) 0 [1/4, 3/4] :=
  ⟨(spec_c8_mask_fallback DEFAULT_CLASS_LABELS "mango" [1/4, 3/4] (by decide)).2.1
      (by decide),
   (spec_c8_mask_fallback DEFAULT_CLASS_LABELS "apple" [1/4, 3/4] (by decide)).2.2.1
      (by decide)⟩

lemma realBranch_eq (labels : List String) (flt : Option String) (preds : List ℚ)
    (p : ℚ) (t : List ℚ) (hm : applyMask labels flt preds = p :: t) :
    realBranch labels flt (Except.ok preds)
      = match labels[(argmaxAux 1 0 p t).1]? with
        | none => errResult "list index out of range"
        | some raw =>
          if (argmaxAux 1 0 p t).2 * 100 < 45 then
            { success := false, disease_name := "Crop Not Trained",
              confidence := pyRound 2 ((argmaxAux 1 0 p t).2 * 100), is_healthy := false,
              raw_label := some raw,
              error := some (lowConfMsg (pyRound 1 ((argmaxAux 1 0 p t).2 * 100))) }
          else
            { success := true, disease_name := formatLabel raw,
              confidence := pyRound 2 ((argmaxAux 1 0 p t).2 * 100),
              is_healthy := hasSub (strLower raw).toList "healthy".toList,
              raw_label := some raw, error := none } := by
  unfold realBranch
  dsimp only
  rw [hm]

/-- C1: with a real model (mock inactive) and the gate passed, the
confidence threshold is strict less-than 45.0 on
`confidence = max(probabilities) * 100`: exactly 45.0 passes
(`success = true`), while below 45.0 the result is the reported failure
with `diseaseName = "Crop Not Trained"`, the error citing the confidence
rounded to one decimal, `rawLabel` the (low-confidence) predicted label
and `confidence` the value rounded to two decimals. -/
theorem spec_c1_threshold_strict (labels : List String) (desc : String)
    (flt : Option String) (preds : List ℚ) (p : ℚ) (t : List ℚ)
    (hm : applyMask labels flt preds = p :: t)
    (hidx : (argmaxAux 1 0 p t).1 < labels.length) :
    ((argmaxAux 1 0 p t).2 * 100 = 45 →
      (predict_disease labels false (true, desc) (Except.ok preds) flt).map
        PredictionResult.success = some true)
    ∧ ((argmaxAux 1 0 p t).2 * 100 < 45 →
      predict_disease labels false (true, desc) (Except.ok preds) flt
        = some { success := false, disease_name := "Crop Not Trained",
                 confidence := pyRound 2 ((argmaxAux 1 0 p t).2 * 100),
                 is_healthy := false,
                 raw_label := some (labels.getD (argmaxAux 1 0 p t).1 ""),
                 error := some (lowConfMsg (pyRound 1 ((argmaxAux 1 0 p t).2 * 100))) }) := by
  have hP : predict_disease labels false (true, desc) (Except.ok preds) flt
      = some (realBranch labels flt (Except.ok preds)) := rfl
  have hL := getElemQ_eq labels _ hidx
  rw [hP, realBranch_eq labels flt preds p t hm, hL]
  dsimp only
  constructor
  · intro h45
    have hnlt : ¬ ((argmaxAux 1 0 p t).2 * 100 < 45) := by rw [h45]; exact lt_irrefl 45
    rw [if_neg hnlt]
    rfl
  · intro hlt
    rw [if_pos hlt]

/-- Witness for `spec_c1_threshold_strict`: on a two-label registry with no
filter, the probability vector `[9/20, 1/10]` has max exactly 0.45
(confidence 45.0) and passes, while `[4499/10000, 1/10]` has confidence
44.99 and yields the reported low-confidence failure. -/
theorem spec_c1_threshold_strict_witness :
    ((predict_disease ["A", "B"] false (true, "x")
        (Except.ok [9/20, 1/10]) none).map PredictionResult.success = some true)
    ∧ predict_disease ["A", "B"] false (true, "x")
        (Except.ok [4499/10000, 1/10]) none
      = some { success := false, disease_name := "Crop Not Trained",
               confidence := pyRound 2 ((argmaxAux 1 0 (4499/10000) [1/10]).2 * 100),
               is_healthy := false,
               raw_label := some (["A", "B"].getD (argmaxAux 1 0 (4499/10000) [1/10]).1 ""),
               error := some (lowConfMsg (pyRound 1
                 ((argmaxAux 1 0 (4499/10000) [1/10]).2 * 100))) } :=
  ⟨(spec_c1_threshold_strict ["A", "B"] "x" none [9/20, 1/10] (9/20) [1/10] rfl
      (by norm_num [argmaxAux])).1 (by norm_num [argmaxAux]),
   (spec_c1_threshold_strict ["A", "B"] "x" none [4499/10000, 1/10] (4499/10000) [1/10] rfl
      (by norm_num [argmaxAux])).2 (by norm_num [argmaxAux])⟩

/-- C6 counterexample: no clamping happens on an out-of-bounds argmax.  On
a one-label registry with probability vector `[0, 1]` (argmax index 1, out
of bounds), the claim predicts a clamped index 0 and a produced label; the
code instead raises `IndexError` at `CLASS_LABELS[pred_idx]`, caught by the
generic handler: the result is the `"Error"` failure dictionary with no
`raw_label` at all. -/
theorem spec_c6_counterexample :
    (predict_disease ["Apple___Apple_scab"] false (true, "x")
        (Except.ok [0, 1]) none).map
      (fun r => (r.raw_label, r.disease_name, r.success))
      = some (none, "Error", false) := by
  have h := realBranch_eq ["Apple___Apple_scab"] none [0, 1] 0 [1] rfl
  have ham : argmaxAux 1 0 (0 : ℚ) [1] = (1, 1) := by
    rw [argmaxAux, if_pos (by norm_num), argmaxAux]
  rw [ham] at h
  have hP : predict_disease ["Apple___Apple_scab"] false (true, "x")
      (Except.ok [0, 1]) none
      = some (realBranch ["Apple___Apple_scab"] none (Except.ok [0, 1])) := rfl
  rw [hP, h]
  rfl

/-- C6 amended: when the argmax of the (possibly masked) probability vector
is out of bounds relative to the label registry, the pipeline does not
clamp: the label lookup raises `IndexError` (`"list index out of range"`),
which the surrounding handler converts into the `success = false`,
`diseaseName = "Error"` dictionary with confidence 0 and no `rawLabel` — a
graceful failure, but no label is produced. -/
theorem spec_c6_no_clamp (labels : List String) (desc : String)
    (flt : Option String) (preds : List ℚ) (p : ℚ) (t : List ℚ)
    (hm : applyMask labels flt preds = p :: t)
    (hidx : labels.length ≤ (argmaxAux 1 0 p t).1) :
    predict_disease labels false (true, desc) (Except.ok preds) flt
      = some (errResult "list index out of range") := by
  have hP : predict_disease labels false (true, desc) (Except.ok preds) flt
      = some (realBranch labels flt (Except.ok preds)) := rfl
  have hL : labels[(argmaxAux 1 0 p t).1]? = none := List.getElem?_eq_none hidx
  rw [hP, realBranch_eq labels flt preds p t hm, hL]

/-- Witness for `spec_c6_no_clamp` at the same concrete out-of-bounds
input. -/
theorem spec_c6_no_clamp_witness :
    predict_disease ["Wheat___healthy"] false (true, "x") (Except.ok [0, 1]) none
      = some (errResult "list index out of range") :=
  spec_c6_no_clamp ["Wheat___healthy"] "x" none [0, 1] 0 [1] rfl
    (by rw [argmaxAux, if_pos (by norm_num), argmaxAux]; norm_num)

lemma argmaxAux_snd_mem : ∀ (l : List ℚ) (i bi : ℕ) (bv : ℚ),
    (argmaxAux i bi bv l).2 = bv ∨ (argmaxAux i bi bv l).2 ∈ l := by
  intro l
  induction l with
  | nil => intro i bi bv; left; rfl
  | cons p t ih =>
    intro i bi bv
    rw [argmaxAux]
    split
    · rcases ih (i + 1) i p with h | h
      · right; rw [h]; exact List.mem_cons_self _ _
      · right; exact List.mem_cons_of_mem _ h
    · rcases ih (i + 1) bi bv with h | h
      · left; exact h
      · right; exact List.mem_cons_of_mem _ h

lemma maskList_mem (vi : List ℕ) : ∀ (l : List ℚ) (s : ℕ) (q : ℚ),
    q ∈ maskList vi s l → q = 0 ∨ q ∈ l := by
  intro l
  induction l with
  | nil => intro s q hq; simp [maskList] at hq
  | cons p t ih =>
    intro s q hq
    rw [maskList] at hq
    rcases List.mem_cons.mp hq with h | h
    · split at h
      · right; rw [h]; exact List.mem_cons_self _ _
      · left; exact h
    · rcases ih (s + 1) q h with h2 | h2
      · left; exact h2
      · right; exact List.mem_cons_of_mem _ h2

lemma applyMask_mem (labels : List String) (flt : Option String) (preds : List ℚ)
    (q : ℚ) (hq : q ∈ applyMask labels flt preds) : q = 0 ∨ q ∈ preds := by
  rcases flt with _ | f
  · right; exact hq
  · rw [applyMask] at hq
    split_ifs at hq
    · right; exact hq
    · right; exact hq
    · exact maskList_mem _ preds 0 q hq

lemma rhe_nonneg (q : ℚ) (h : 0 ≤ q) : 0 ≤ rhe q := by
  rw [rhe]
  have hf : (0 : ℤ) ≤ ⌊q⌋ := Int.floor_nonneg.mpr h
  split_ifs <;> omega

lemma rhe_le (q : ℚ) (N : ℤ) (h : q ≤ N) : rhe q ≤ N := by
  have h1 : ⌊q⌋ ≤ N := by
    have h2 := Int.floor_le_floor h
    rwa [Int.floor_intCast] at h2
  have hsucc : 1/2 ≤ q - ⌊q⌋ → ⌊q⌋ + 1 ≤ N := by
    intro hge
    rcases eq_or_lt_of_le h1 with heq | hlt
    · exfalso
      have hfq : (⌊q⌋ : ℚ) ≤ q := Int.floor_le q
      have hqf : q ≤ (⌊q⌋ : ℚ) := by rw [heq]; exact_mod_cast h
      have : q - (⌊q⌋ : ℚ) = 0 := by linarith
      linarith
    · omega
  rw [rhe]
  split_ifs with ha hb hc
  · exact h1
  · exact hsucc (by linarith [not_lt.mp ha])
  · exact h1
  · exact hsucc (by linarith [not_lt.mp ha])

lemma pyRound2_bounds (q : ℚ) (h0 : 0 ≤ q) (h100 : q ≤ 100) :
    0 ≤ pyRound 2 q ∧ pyRound 2 q ≤ 100 := by
  rw [pyRound]
  have hnn : (0 : ℤ) ≤ rhe (q * 10 ^ 2) := rhe_nonneg _ (by positivity)
  have hub : rhe (q * 10 ^ 2) ≤ 10000 := by
    refine rhe_le _ 10000 ?_
    push_cast
    nlinarith
  constructor
  · apply div_nonneg _ (by norm_num)
    exact_mod_cast hnn
  · rw [div_le_iff₀ (by norm_num : (0 : ℚ) < 10 ^ 2)]
    have hub2 : ((rhe (q * 10 ^ 2) : ℤ) : ℚ) ≤ 10000 := by exact_mod_cast hub
    norm_num at hub2 ⊢
    linarith

lemma strLen_pos (s : String) (h : s ≠ "") : 0 < s.length := by
  cases s with
  | mk l =>
    cases l with
    | nil => exact absurd (by decide) h
    | cons c t => simp [String.length]

lemma gateMsg_len (d : String) : 0 < (gateMsg d).length := by
  rw [gateMsg, String.length_append, String.length_append, String.length_append,
    String.length_append]
  have h : 0 < ("Image appears to be " : String).length := by decide
  omega

lemma lowConfMsg_len (r : ℚ) : 0 < (lowConfMsg r).length := by
  rw [lowConfMsg, String.length_append, String.length_append]
  have h : 0 < ("Low confidence (" : String).length := by decide
  omega

/-- C4 counterexample: the non-empty-error invariant fails in the
inference-exception branch.  When the backend raises an exception whose
`str(e)` is the empty string, the pipeline returns `success = false` with
`error = some ""` — present but empty, contradicting the claimed invariant
for every input and branch. -/
theorem spec_c4_counterexample :
    (predict_disease DEFAULT_CLASS_LABELS false (true, "x")
        (Except.error "") none).map (fun r => (r.success, r.error))
      = some (false, some "") := rfl

/-- C4 amended: whenever `success = false` the `error` field is present;
it is moreover non-empty in every branch except the inference-exception
branch, where it is the backend's raw message verbatim (non-empty whenever
that message is, as hypothesised here).  The confidence always lies in
[0, 100] provided the prediction vector is a probability vector (entries
in [0, 1], as a softmax output is); it is exactly 0 in the rejection and
exception branches, 85.5 in mock mode, and the rounded max·100 otherwise.
(No clamping is performed by the code; the bound is inherited from the
input range.) -/
theorem spec_c4_result_invariant (labels : List String) (mock : Bool)
    (gate : Bool × String) (inference : Except String (List ℚ))
    (flt : Option String) (r : PredictionResult)
    (hr : predict_disease labels mock gate inference flt = some r)
    (hp : ∀ q ∈ predsOf inference, 0 ≤ q ∧ q ≤ 1)
    (hm : errMsgOf inference ≠ some "") :
    (r.success = false → r.error.isSome = true ∧ 0 < (r.error.getD "").length)
    ∧ (0 ≤ r.confidence ∧ r.confidence ≤ 100) := by
  obtain ⟨g, desc⟩ := gate
  cases mock with
  | true =>
    rw [predict_disease, if_pos rfl, mockPredict] at hr
    cases hlab : labels[mockIdx labels flt]? with
    | none => rw [hlab] at hr; exact absurd hr (by simp)
    | some raw =>
      rw [hlab] at hr
      simp only [Option.some.injEq] at hr
      subst hr
      exact ⟨fun hf => by simp at hf, by norm_num⟩
  | false =>
    cases g with
    | false =>
      have he : predict_disease labels false (false, desc) inference flt
          = some (gateReject desc) := rfl
      rw [he] at hr
      obtain rfl := Option.some.inj hr
      exact ⟨fun _ => ⟨rfl, gateMsg_len desc⟩, by norm_num [gateReject]⟩
    | true =>
      have he : predict_disease labels false (true, desc) inference flt
          = some (realBranch labels flt inference) := rfl
      rw [he] at hr
      obtain rfl := Option.some.inj hr
      cases inference with
      | error msg =>
        have hmsg : msg ≠ "" := by simpa [errMsgOf] using hm
        exact ⟨fun _ => ⟨rfl, strLen_pos msg hmsg⟩, by norm_num [realBranch, errResult]⟩
      | ok preds =>
        cases hmm : applyMask labels flt preds with
        | nil =>
          have hrb : realBranch labels flt (Except.ok preds)
              = errResult "attempt to get argmax of an empty sequence" := by
            unfold realBranch
            dsimp only
            rw [hmm]
          rw [hrb]
          exact ⟨fun _ => ⟨rfl, by decide⟩, by norm_num [errResult]⟩
        | cons p t =>
          rw [realBranch_eq labels flt preds p t hmm]
          have hmem : (argmaxAux 1 0 p t).2 ∈ applyMask labels flt preds := by
            rw [hmm]
            rcases argmaxAux_snd_mem t 1 0 p with h | h
            · rw [h]; exact List.mem_cons_self _ _
            · exact List.mem_cons_of_mem _ h
          have hb : 0 ≤ (argmaxAux 1 0 p t).2 ∧ (argmaxAux 1 0 p t).2 ≤ 1 := by
            rcases applyMask_mem labels flt preds _ hmem with h | h
            · rw [h]; norm_num
            · exact hp _ h
          have hpr := pyRound2_bounds ((argmaxAux 1 0 p t).2 * 100)
            (by nlinarith [hb.1]) (by nlinarith [hb.2])
          cases hlab : labels[(argmaxAux 1 0 p t).1]? with
          | none =>
            refine ⟨fun _ => ⟨rfl, ?_⟩, by norm_num [errResult]⟩
            show 0 < ((errResult "list index out of range").error.getD "").length
            decide
          | some raw =>
            dsimp only
            split_ifs with hlt
            · exact ⟨fun _ => ⟨rfl, lowConfMsg_len _⟩, hpr⟩
            · exact ⟨fun hf => by simp at hf, hpr⟩

/-- Witness for `spec_c4_result_invariant` in the inference-exception
branch with the non-empty message `"boom"`. -/
theorem spec_c4_result_invariant_witness :
    (errResult "boom").error.isSome = true
    ∧ 0 < ((errResult "boom").error.getD "").length
    ∧ 0 ≤ (errResult "boom").confidence
    ∧ (errResult "boom").confidence ≤ 100 := by
  have h := spec_c4_result_invariant DEFAULT_CLASS_LABELS false (true, "x")
    (Except.error "boom") none (errResult "boom") rfl (by decide) (by decide)
  exact ⟨(h.1 rfl).1, (h.1 rfl).2, h.2.1, h.2.2⟩
